import Mathlib

/-!
Verification development for a NestJS user-registration / JWT-login backend.

The embedding translates, from the repository source:
* `CreateUserDto` (src/user/dto/create-user.dto.ts): the declarative
  class-validator rules for registration, including the `@Transform`
  normalizers and the exact regular expressions;
* `LoginDto` (src/auth/dto/login.dto.ts);
* the global `ValidationPipe` configuration (src/main.ts): `whitelist`,
  `forbidNonWhitelisted`, `transform`, `enableImplicitConversion`;
* `UserService.register` / `getUsers` / `getUserById`
  (src/user/user.service.ts) over a Prisma user store;
* the JWT payload contract (src/auth/types/auth.types.ts).

Strings are modelled as Lean `String` (lists of characters); JavaScript
string lengths agree with character counts for the Basic Multilingual Plane
inputs considered here.  JSON numbers are modelled by integers (`Int`);
no claim involves a fractional numeric input.
-/

/-- JavaScript whitespace as tested by `\s` and removed by `trim()`
(ASCII space, tab, line feed, vertical tab, form feed, carriage return). -/
def jsWhitespaceChar (c : Char) : Bool :=
  decide (c.toNat = 32 ∨ c.toNat = 9 ∨ c.toNat = 10 ∨ c.toNat = 11 ∨
          c.toNat = 12 ∨ c.toNat = 13)

/-- `String.prototype.trim()`: drop whitespace from both ends. -/
def jsTrimList (cs : List Char) : List Char :=
  ((cs.dropWhile jsWhitespaceChar).reverse.dropWhile jsWhitespaceChar).reverse

/-- `value.trim()` on a Lean string. -/
def jsTrim (s : String) : String := ⟨jsTrimList s.data⟩

/-- `String.prototype.toLowerCase()`, restricted to the ASCII case mapping
(all emails appearing in the claims are ASCII). -/
def jsToLower (s : String) : String := ⟨s.data.map Char.toLower⟩

/-- JavaScript regular-expression line terminators, which `.` never matches. -/
def lineTerminatorChar (c : Char) : Bool :=
  decide (c.toNat = 10 ∨ c.toNat = 13 ∨ c.toNat = 0x2028 ∨ c.toNat = 0x2029)

/-- Semantics of the lookahead `(?=.*X)` anchored at the start of the string:
some character satisfying `p` occurs with only non-line-terminator
characters before it. -/
def dotStarContains (p : Char → Bool) (cs : List Char) : Bool :=
  (cs.takeWhile (fun c => !lineTerminatorChar c)).any p

/-- `[a-z]` -/
def lowerAlphaChar (c : Char) : Bool := decide (97 ≤ c.toNat ∧ c.toNat ≤ 122)

/-- `[A-Z]` -/
def upperAlphaChar (c : Char) : Bool := decide (65 ≤ c.toNat ∧ c.toNat ≤ 90)

/-- `\d` -/
def digitCharB (c : Char) : Bool := decide (48 ≤ c.toNat ∧ c.toNat ≤ 57)

/-- The fixed allowed symbol set `[@$!%*?&]` of the password rule. -/
def passwordSpecialChar (c : Char) : Bool :=
  decide (c = '@' ∨ c = '$' ∨ c = '!' ∨ c = '%' ∨ c = '*' ∨ c = '?' ∨ c = '&')

/-- The character class `[A-Za-z\d@$!%*?&]` of the password pattern. -/
def passwordClassChar (c : Char) : Bool :=
  lowerAlphaChar c || upperAlphaChar c || digitCharB c || passwordSpecialChar c

/-- The password pattern of `CreateUserDto`
(`/^(?=.*[a-z])(?=.*[A-Z])(?=.*\d)(?=.*[@$!%*?&])[A-Za-z\d@$!%*?&]/`):
four lookaheads at position 0, then ONE character of the class — the class
constrains only the first character, and the regex is not anchored at the
end, so later characters are unconstrained. -/
def passwordPattern (s : String) : Bool :=
  match s.data with
  | [] => false
  | c :: _ =>
      passwordClassChar c && dotStarContains lowerAlphaChar s.data &&
      dotStarContains upperAlphaChar s.data && dotStarContains digitCharB s.data &&
      dotStarContains passwordSpecialChar s.data

/-- The character class `[a-zA-ZÀ-ÿ\s'-]` of the name pattern
(letters including the Latin-1 accented range 0xC0–0xFF, whitespace,
apostrophe, hyphen). -/
def nameClassChar (c : Char) : Bool :=
  lowerAlphaChar c || upperAlphaChar c ||
  decide (0xC0 ≤ c.toNat ∧ c.toNat ≤ 0xFF) ||
  jsWhitespaceChar c || decide (c.toNat = 39) || decide (c = '-')

/-- The name pattern of `CreateUserDto` (`/^[a-zA-ZÀ-ÿ\s'-]+$/`). -/
def namePattern (s : String) : Bool :=
  !s.data.isEmpty && s.data.all nameClassChar

/-- `[^\s@]` of the e-mail shape. -/
def emailPlainChar (c : Char) : Bool := !jsWhitespaceChar c && decide (c ≠ '@')

/-- The domain part contains a dot that is neither first nor last
(`[^\s@]+\.[^\s@]+` with nonempty chunks on both sides). -/
def hasInnerDot (cs : List Char) : Bool :=
  (List.range cs.length).any
    (fun i => decide (cs.getD i ' ' = '.') && decide (0 < i) &&
              decide (i + 1 < cs.length))

/-- Syntactic e-mail validity, modelled from the repository validation
documentation (`/^[^\s@]+@[^\s@]+\.[^\s@]+$/`, the repository's own
characterization of its `@IsEmail` rule): one `@`, no whitespace, nonempty
local part, and a domain with an inner dot. -/
def isEmailShape (s : String) : Bool :=
  let cs := s.data
  let lpart := cs.takeWhile (fun c => decide (c ≠ '@'))
  let rest := cs.drop lpart.length
  match rest with
  | [] => false
  | _ :: dpart =>
      !lpart.isEmpty && lpart.all emailPlainChar &&
      dpart.all emailPlainChar && hasInnerDot dpart

/-- A raw JSON field value as it reaches the `ValidationPipe`. -/
inductive RVal where
  | rstr (s : String)
  | rnum (n : Int)
  | rbool (b : Bool)
  deriving DecidableEq, Repr

/-- A raw request body: an object, i.e. a list of key/value pairs. -/
abbrev RawInput : Type := List (String × RVal)

/-- Field access on the raw body. -/
def lookupRaw (raw : RawInput) (k : String) : Option RVal :=
  (raw.find? (fun kv => kv.fst = k)).map (fun kv => kv.snd)

/-- Declared properties of `CreateUserDto`. -/
def dtoKeys : List String := ["name", "email", "password", "age"]

/-- Declared properties of `LoginDto`. -/
def loginKeys : List String := ["email", "password"]

/-- String fields keep string inputs; other shapes are not silently turned
into strings (non-string inputs fail the string-typed validators). -/
def asStr : Option RVal → Option String
  | some (RVal.rstr s) => some s
  | _ => none

/-- `@Transform(({value}) => value?.trim())` on `name`. -/
def transformName (v : Option RVal) : Option String :=
  (asStr v).map (fun s => jsTrim s)

/-- `@Transform(({value}) => value?.toLowerCase().trim())` on `email`. -/
def transformEmail (v : Option RVal) : Option String :=
  (asStr v).map (fun s => jsTrim (jsToLower s))

/-- `password` has no `@Transform`: the value is kept verbatim. -/
def transformPassword (v : Option RVal) : Option String := asStr v

/-- Decimal digits of a numeric-looking string. -/
def digitsValue : List Char → Option Nat
  | [] => none
  | cs =>
      cs.foldl
        (fun acc c =>
          match acc with
          | none => none
          | some n => if digitCharB c then some (n * 10 + (c.toNat - 48)) else none)
        (some 0)

/-- JavaScript `Number(s)` on integral inputs: trims, an empty string is 0,
an optional sign followed by digits parses, anything else is NaN (`none`). -/
def parseIntString (s : String) : Option Int :=
  match (jsTrim s).data with
  | [] => some 0
  | '-' :: ds => (digitsValue ds).map (fun n => -(n : Int))
  | '+' :: ds => (digitsValue ds).map (fun n => (n : Int))
  | ds => (digitsValue ds).map (fun n => (n : Int))

/-- `enableImplicitConversion` on the number-typed `age`: numbers pass
through, numeric-looking strings are converted (repository docs: `"25"`
"will be converted if possible"), anything else is NaN (`none`). -/
def transformAge (v : Option RVal) : Option Int :=
  match v with
  | some (RVal.rnum n) => some n
  | some (RVal.rstr s) => parseIntString s
  | _ => none

/-- One declarative validation rule: a check over the transformed value and
the message reported when the check fails. -/
structure Rule (α : Type) where
  check : α → Bool
  message : String

/-- Run a rule list, collecting the message of every failing rule
(class-validator evaluates all constraints, not just the first). -/
def runRules {α : Type} (rules : List (Rule α)) (v : α) : List String :=
  (rules.filter (fun r => !r.check v)).map (fun r => r.message)

/-- `@IsNotEmpty`: defined, and not the empty string. -/
def isNotEmptyStr (v : Option String) : Bool :=
  match v with
  | some s => decide (s ≠ "")
  | none => false

/-- `@MinLength(n)`: a string of length at least `n`. -/
def minLenCheck (n : Nat) (v : Option String) : Bool :=
  match v with
  | some s => decide (n ≤ s.length)
  | none => false

/-- `@MaxLength(n)`: a string of length at most `n`. -/
def maxLenCheck (n : Nat) (v : Option String) : Bool :=
  match v with
  | some s => decide (s.length ≤ n)
  | none => false

def msgNameIsString : String := "name must be a string"
def msgNameRequired : String := "Le nom est obligatoire"
def msgNameMin : String := "Le nom doit contenir au moins 2 caractères"
def msgNameMax : String := "Le nom ne peut pas dépasser 50 caractères"
def msgNamePattern : String :=
  "Le nom ne peut contenir que des lettres, espaces, tirets et apostrophes"
def msgEmailValid : String := "Veuillez fournir une adresse email valide"
def msgEmailRequired : String := "L\x27email est obligatoire"
def msgPasswordIsString : String := "password must be a string"
def msgPasswordRequired : String := "Le mot de passe est obligatoire"
def msgPasswordMin : String := "Le mot de passe doit contenir au moins 8 caractères"
def msgPasswordMax : String := "Le mot de passe ne peut pas dépasser 128 caractères"
def msgPasswordPattern : String :=
  "Le mot de passe doit contenir au moins une lettre minuscule, une lettre majuscule, un chiffre et un caractère spécial (@$!%*?&)"
def msgAgeInt : String := "L\x27âge doit être un nombre entier"
def msgAgeMin : String := "L\x27âge minimum est de 13 ans"
def msgAgeMax : String := "L\x27âge maximum est de 120 ans"
def msgAgeRequired : String := "L\x27âge est obligatoire"

/-- The `name` rules of `CreateUserDto`, in declaration order. -/
def nameRules : List (Rule (Option String)) :=
  [⟨fun v => v.isSome, msgNameIsString⟩,
   ⟨isNotEmptyStr, msgNameRequired⟩,
   ⟨minLenCheck 2, msgNameMin⟩,
   ⟨maxLenCheck 50, msgNameMax⟩,
   ⟨fun v => match v with | some s => namePattern s | none => false, msgNamePattern⟩]

/-- The `email` rules of `CreateUserDto` and `LoginDto`. -/
def emailRules : List (Rule (Option String)) :=
  [⟨fun v => match v with | some s => isEmailShape s | none => false, msgEmailValid⟩,
   ⟨isNotEmptyStr, msgEmailRequired⟩]

/-- The `password` rules of `CreateUserDto`, in declaration order. -/
def passwordRules : List (Rule (Option String)) :=
  [⟨fun v => v.isSome, msgPasswordIsString⟩,
   ⟨isNotEmptyStr, msgPasswordRequired⟩,
   ⟨minLenCheck 8, msgPasswordMin⟩,
   ⟨maxLenCheck 128, msgPasswordMax⟩,
   ⟨fun v => match v with | some s => passwordPattern s | none => false,
    msgPasswordPattern⟩]

/-- The `age` rules of `CreateUserDto`, in declaration order. -/
def ageRules : List (Rule (Option Int)) :=
  [⟨fun v => v.isSome, msgAgeInt⟩,
   ⟨fun v => match v with | some n => decide (13 ≤ n) | none => false, msgAgeMin⟩,
   ⟨fun v => match v with | some n => decide (n ≤ 120) | none => false, msgAgeMax⟩,
   ⟨fun v => v.isSome, msgAgeRequired⟩]

/-- The `password` rules of `LoginDto` (shape only, no complexity). -/
def loginPasswordRules : List (Rule (Option String)) :=
  [⟨fun v => v.isSome, msgPasswordIsString⟩,
   ⟨isNotEmptyStr, msgPasswordRequired⟩]

/-- `forbidNonWhitelisted` of the global `ValidationPipe`: one message per
property outside the DTO. -/
def unknownKeyMessages (keys : List String) (raw : RawInput) : List String :=
  ((raw.map Prod.fst).filter (fun k => !keys.contains k)).map
    (fun k => "property " ++ k ++ " should not exist")

/-- Normalized registration data after the pipe (the `CreateUserDto` shape). -/
structure CreateUserData where
  name : String
  email : String
  password : String
  age : Int
  deriving DecidableEq, Repr

/-- Normalized login data after the pipe (the `LoginDto` shape). -/
structure LoginData where
  email : String
  password : String
  deriving DecidableEq, Repr

/-- The domain error taxonomy visible in responses. -/
inductive AppError where
  | validation (messages : List String)
  | emailConflict
  | invalidCredentials
  | unauthorized
  deriving DecidableEq, Repr

instance {ε α : Type} [DecidableEq ε] [DecidableEq α] : DecidableEq (Except ε α) :=
  fun x y =>
    match x, y with
    | Except.ok a, Except.ok b =>
        if h : a = b then Decidable.isTrue (by rw [h])
        else Decidable.isFalse (by intro hc; cases hc; exact h rfl)
    | Except.error a, Except.error b =>
        if h : a = b then Decidable.isTrue (by rw [h])
        else Decidable.isFalse (by intro hc; cases hc; exact h rfl)
    | Except.ok _, Except.error _ => Decidable.isFalse (by intro hc; cases hc)
    | Except.error _, Except.ok _ => Decidable.isFalse (by intro hc; cases hc)

/-- Messages collected by the registration validation (unknown-property
violations, then the field violations in field declaration order). -/
def regMessages (raw : RawInput) : List String :=
  unknownKeyMessages dtoKeys raw ++
  runRules nameRules (transformName (lookupRaw raw "name")) ++
  runRules emailRules (transformEmail (lookupRaw raw "email")) ++
  runRules passwordRules (transformPassword (lookupRaw raw "password")) ++
  runRules ageRules (transformAge (lookupRaw raw "age"))

/-- The global `ValidationPipe` applied to a registration body: transform
each declared field, collect every violation, and produce either the
normalized `CreateUserData` or a `ValidationError` with all messages. -/
def runRegPipeline (raw : RawInput) : Except AppError CreateUserData :=
  let msgs := regMessages raw
  match transformName (lookupRaw raw "name"),
        transformEmail (lookupRaw raw "email"),
        transformPassword (lookupRaw raw "password"),
        transformAge (lookupRaw raw "age") with
  | some n, some e, some p, some a =>
      if msgs = [] then Except.ok ⟨n, e, p, a⟩
      else Except.error (AppError.validation msgs)
  | _, _, _, _ => Except.error (AppError.validation msgs)

/-- Messages collected by the login validation. -/
def loginMessages (raw : RawInput) : List String :=
  unknownKeyMessages loginKeys raw ++
  runRules emailRules (transformEmail (lookupRaw raw "email")) ++
  runRules loginPasswordRules (transformPassword (lookupRaw raw "password"))

/-- The global `ValidationPipe` applied to a login body. -/
def runLoginPipeline (raw : RawInput) : Except AppError LoginData :=
  let msgs := loginMessages raw
  match transformEmail (lookupRaw raw "email"),
        transformPassword (lookupRaw raw "password") with
  | some e, some p =>
      if msgs = [] then Except.ok ⟨e, p⟩
      else Except.error (AppError.validation msgs)
  | _, _ => Except.error (AppError.validation msgs)

/-- A stored user row (the Prisma `User` model / `src/types/user.types.ts`). -/
structure UserRecord where
  id : String
  name : String
  email : String
  passwordHash : String
  age : Int
  deriving DecidableEq, Repr

/-- The user store.  Prisma-generated cuids are modelled as fresh ids drawn
from a counter: each insert uses `Nat.repr nextId` and increments the
counter, so ids are opaque unique strings generated at creation. -/
structure Store where
  users : List UserRecord
  nextId : Nat
  deriving DecidableEq, Repr

/-- `prisma.user.findUnique({ where: { email } })`. -/
def Store.findByEmail (st : Store) (e : String) : Option UserRecord :=
  st.users.find? (fun u => u.email = e)

/-- `prisma.user.findUnique({ where: { id } })`. -/
def Store.findById (st : Store) (i : String) : Option UserRecord :=
  st.users.find? (fun u => u.id = i)

/-- The JWT claims (`src/auth/types/auth.types.ts`). -/
structure JwtPayload where
  sub : String
  email : String
  deriving DecidableEq, Repr

/-- A signed compact token.  The JWT encode/decode pair is a bijection on
payloads, so a signed token is modelled as its carried claims. -/
structure SignedToken where
  payload : JwtPayload
  deriving DecidableEq, Repr

/-- `jwtService.sign(payload)`. -/
def jwtSign (p : JwtPayload) : SignedToken := ⟨p⟩

/-- Verifying/decoding a token recovers exactly the signed claims. -/
def jwtDecode (t : SignedToken) : JwtPayload := t.payload

/-- The registration/login success body: only `{ access_token }` —
the created user's public view is NOT part of this shape. -/
structure TokenResponse where
  access_token : SignedToken
  deriving DecidableEq, Repr

/-- The public projection returned by user reads: exactly
`{ id, name, email, age }` (the Prisma `select` in every query of
`UserService`), never `passwordHash`. -/
structure UserResponse where
  id : String
  name : String
  email : String
  age : Int
  deriving DecidableEq, Repr

/-- The `select { id, name, email, age }` projection. -/
def toUserResponse (u : UserRecord) : UserResponse :=
  ⟨u.id, u.name, u.email, u.age⟩

namespace UserService

/-- `UserService.getUsers`: `findMany` with the public-field `select`. -/
def getUsers (st : Store) : List UserResponse :=
  st.users.map toUserResponse

/-- `UserService.getUserById`: `findUnique` with the public-field `select`;
a missing id yields `none` (the controller passes it straight through, so
the HTTP layer answers 200 with an empty body, not 404). -/
def getUserById (i : String) (st : Store) : Option UserResponse :=
  (st.findById i).map toUserResponse

/-- `UserService.register`: look up the (already normalized) email; on a hit
throw `ConflictException`; otherwise hash the password (`bcrypt.hash`,
abstracted as the function argument `bhash`, which models the salted slow
hash), insert the record with a store-generated id, and return only
`{ access_token: jwt.sign({ sub: id, email }) }`. -/
def register (bhash : String → String) (dto : CreateUserData) (st : Store) :
    Except AppError (TokenResponse × Store) :=
  match st.findByEmail dto.email with
  | some _ => Except.error AppError.emailConflict
  | none =>
      let hashedPassword := bhash dto.password
      let user : UserRecord :=
        ⟨Nat.repr st.nextId, dto.name, dto.email, hashedPassword, dto.age⟩
      Except.ok (⟨jwtSign ⟨user.id, user.email⟩⟩,
                 ⟨st.users ++ [user], st.nextId + 1⟩)

end UserService

/-- `POST /users/register`: the `ValidationPipe` then `UserService.register`. -/
def registerEndpoint (bhash : String → String) (raw : RawInput) (st : Store) :
    Except AppError (TokenResponse × Store) :=
  match runRegPipeline raw with
  | Except.error e => Except.error e
  | Except.ok dto => UserService.register bhash dto st

/-- The store after a registration attempt (a thrown exception leaves the
store untouched). -/
def registerStep (bhash : String → String) (raw : RawInput) (st : Store) : Store :=
  match registerEndpoint bhash raw st with
  | Except.ok (_, st2) => st2
  | Except.error _ => st

namespace AuthService

/-- Modelled from the spec: `AuthService.login` is not under `src/` (only its
DTO, JWT types and API documentation are).  Spec §4.4: look up the user by
normalized email; not found fails with `InvalidCredentials`; then verify the
password against the stored hash (`bcrypt.compare`, abstracted as `bverify`);
mismatch fails with the same `InvalidCredentials`; else issue the token. -/
def login (bverify : String → String → Bool) (dto : LoginData) (st : Store) :
    Except AppError TokenResponse :=
  match st.findByEmail dto.email with
  | none => Except.error AppError.invalidCredentials
  | some u =>
      if bverify dto.password u.passwordHash then
        Except.ok ⟨jwtSign ⟨u.id, u.email⟩⟩
      else Except.error AppError.invalidCredentials

/-- Modelled from the spec: `GET /auth/profile` is not under `src/`.
Spec §4.4: verify the token, look up the user by `claims.sub`, return the
public view; a missing user is `Unauthorized`. -/
def getProfile (t : SignedToken) (st : Store) : Except AppError UserResponse :=
  match st.findById (jwtDecode t).sub with
  | none => Except.error AppError.unauthorized
  | some u => Except.ok (toUserResponse u)

end AuthService

/-- Stores reachable from the empty store by registration attempts — the only
operation in the spec scope (§4.4) that mutates the store.  Each attempt may
use its own hash function (bcrypt draws a fresh salt per call). -/
inductive Reachable : Store → Prop where
  | empty : Reachable ⟨[], 0⟩
  | step (bhash : String → String) (raw : RawInput) {st : Store} :
      Reachable st → Reachable (registerStep bhash raw st)

/-- Replace every stored password hash (used to state that responses do not
depend on hashes). -/
def eraseHashes (st : Store) : Store :=
  ⟨st.users.map (fun u => { u with passwordHash := "" }), st.nextId⟩

/-! ### Helper lemmas about the validation pipeline -/

theorem runRules_eq_nil_iff {α : Type} (rules : List (Rule α)) (v : α) :
    runRules rules v = [] ↔ ∀ r ∈ rules, r.check v = true := by
  simp [runRules, List.filter_eq_nil_iff]

theorem runRegPipeline_ok_iff {raw : RawInput} {dto : CreateUserData} :
    runRegPipeline raw = Except.ok dto ↔
      transformName (lookupRaw raw "name") = some dto.name ∧
      transformEmail (lookupRaw raw "email") = some dto.email ∧
      transformPassword (lookupRaw raw "password") = some dto.password ∧
      transformAge (lookupRaw raw "age") = some dto.age ∧
      regMessages raw = [] := by
  obtain ⟨dn, de, dp, da⟩ := dto
  unfold runRegPipeline
  cases hn : transformName (lookupRaw raw "name") <;>
    cases he : transformEmail (lookupRaw raw "email") <;>
      cases hp : transformPassword (lookupRaw raw "password") <;>
        cases ha : transformAge (lookupRaw raw "age") <;>
          simp_all <;> (try (split <;> simp_all))

theorem runRegPipeline_error_elim {raw : RawInput} {msgs : List String}
    (h : runRegPipeline raw = Except.error (AppError.validation msgs)) :
    msgs = regMessages raw := by
  unfold runRegPipeline at h
  dsimp only at h
  split at h
  · split at h
    · cases h
    · simp only [Except.error.injEq, AppError.validation.injEq] at h
      exact h.symm
  · simp only [Except.error.injEq, AppError.validation.injEq] at h
    exact h.symm

theorem runRegPipeline_error_of_ne {raw : RawInput} (h : regMessages raw ≠ []) :
    runRegPipeline raw = Except.error (AppError.validation (regMessages raw)) := by
  unfold runRegPipeline
  dsimp only
  split
  · simp [h]
  · rfl

theorem runLoginPipeline_error_of_ne {raw : RawInput} (h : loginMessages raw ≠ []) :
    runLoginPipeline raw = Except.error (AppError.validation (loginMessages raw)) := by
  unfold runLoginPipeline
  dsimp only
  split
  · simp [h]
  · rfl

theorem transformName_eq_some {v : Option RVal} {e : String} :
    transformName v = some e ↔ ∃ s, v = some (RVal.rstr s) ∧ e = jsTrim s := by
  cases v with
  | none => simp [transformName, asStr]
  | some rv => cases rv <;> simp [transformName, asStr] <;> exact comm

theorem transformEmail_eq_some {v : Option RVal} {e : String} :
    transformEmail v = some e ↔
      ∃ s, v = some (RVal.rstr s) ∧ e = jsTrim (jsToLower s) := by
  cases v with
  | none => simp [transformEmail, asStr]
  | some rv => cases rv <;> simp [transformEmail, asStr] <;> exact comm

theorem transformPassword_eq_some {v : Option RVal} {e : String} :
    transformPassword v = some e ↔ ∃ s, v = some (RVal.rstr s) ∧ e = s := by
  cases v with
  | none => simp [transformPassword, asStr]
  | some rv => cases rv <;> simp [transformPassword, asStr] <;> exact comm

theorem transformAge_eq_some {v : Option RVal} {a : Int} :
    transformAge v = some a ↔
      (∃ n, v = some (RVal.rnum n) ∧ a = n) ∨
      (∃ s, v = some (RVal.rstr s) ∧ parseIntString s = some a) := by
  cases v with
  | none => simp [transformAge]
  | some rv => cases rv <;> simp [transformAge] <;> exact comm

theorem registerEndpoint_ok_elim {bhash : String → String} {raw : RawInput}
    {st : Store} {out : TokenResponse × Store}
    (h : registerEndpoint bhash raw st = Except.ok out) :
    ∃ dto : CreateUserData,
      runRegPipeline raw = Except.ok dto ∧
      st.findByEmail dto.email = none ∧
      out = (⟨jwtSign ⟨Nat.repr st.nextId, dto.email⟩⟩,
             ⟨st.users ++
                [⟨Nat.repr st.nextId, dto.name, dto.email, bhash dto.password,
                  dto.age⟩],
              st.nextId + 1⟩) := by
  unfold registerEndpoint at h
  cases hp : runRegPipeline raw with
  | error e => rw [hp] at h; cases h
  | ok dto =>
      rw [hp] at h
      dsimp only at h
      unfold UserService.register at h
      cases hf : st.findByEmail dto.email with
      | some u => rw [hf] at h; cases h
      | none =>
          rw [hf] at h
          injection h with h2
          exact ⟨dto, rfl, hf, h2.symm⟩


/-! ### Claim theorems -/

/-- C1: for every registration input satisfying all the rules of §4.1
(i.e. accepted by the validation pipeline) whose normalized email is not
already stored (§4.4 step 2, the conflict path being claim C2's subject),
Register succeeds: it appends exactly one new `UserRecord` to the store and
returns only `{ access_token }` (the `TokenResponse` shape, not the public
user view), where the decoded token's `sub` is the new record's generated id
and its `email` is the stored normalized email. -/
theorem register_valid_input_creates_user_and_token
    (bhash : String → String) (raw : RawInput) (st : Store)
    (dto : CreateUserData)
    (hval : runRegPipeline raw = Except.ok dto)
    (hfresh : st.findByEmail dto.email = none) :
    ∃ (tok : SignedToken) (u : UserRecord),
      registerEndpoint bhash raw st =
        Except.ok (⟨tok⟩, ⟨st.users ++ [u], st.nextId + 1⟩) ∧
      u = ⟨Nat.repr st.nextId, dto.name, dto.email, bhash dto.password, dto.age⟩ ∧
      (jwtDecode tok).sub = u.id ∧
      (jwtDecode tok).email = u.email ∧
      u.email = dto.email := by
  refine ⟨jwtSign ⟨Nat.repr st.nextId, dto.email⟩,
          ⟨Nat.repr st.nextId, dto.name, dto.email, bhash dto.password, dto.age⟩,
          ?_, rfl, rfl, rfl, rfl⟩
  unfold registerEndpoint
  rw [hval]
  dsimp only
  unfold UserService.register
  rw [hfresh]

/-- Witness for C1: the valid registration of spec §8
(`Jean Dupont` / `Jean@Example.COM` / `Secure1!abc` / 30) on the empty
store succeeds, with the stored email normalized to `jean@example.com`. -/
theorem register_valid_input_creates_user_and_token_witness :
    ∃ (tok : SignedToken) (u : UserRecord),
      registerEndpoint (fun _ => "h0")
        [("name", RVal.rstr "Jean Dupont"), ("email", RVal.rstr "Jean@Example.COM"),
         ("password", RVal.rstr "Secure1!abc"), ("age", RVal.rnum 30)]
        ⟨[], 0⟩ =
        Except.ok (⟨tok⟩, ⟨[] ++ [u], 0 + 1⟩) ∧
      u = ⟨Nat.repr 0, "Jean Dupont", "jean@example.com", "h0", 30⟩ ∧
      (jwtDecode tok).sub = u.id ∧
      (jwtDecode tok).email = u.email ∧
      u.email = "jean@example.com" :=
  register_valid_input_creates_user_and_token (fun _ => "h0")
    [("name", RVal.rstr "Jean Dupont"), ("email", RVal.rstr "Jean@Example.COM"),
     ("password", RVal.rstr "Secure1!abc"), ("age", RVal.rnum 30)]
    ⟨[], 0⟩ ⟨"Jean Dupont", "jean@example.com", "Secure1!abc", 30⟩
    (by decide) (by decide)

/-- C3 (code bug): the source `UserService.getUserById` and its controller
return the Prisma `findUnique` result directly — `none` for a missing id,
which the HTTP layer serializes as an empty 200, never the documented
`NotFound` (the service has no error case at all); a present id does return
the public view.  The repository's own docs (docs/user-api.md) document a
404 `User not found` response for this route. -/
theorem getUserById_missing_id_yields_none_not_error :
    UserService.getUserById "1"
      ⟨[⟨"0", "Jean Dupont", "jean@example.com", "h0", 30⟩], 1⟩ = none ∧
    UserService.getUserById "0"
      ⟨[⟨"0", "Jean Dupont", "jean@example.com", "h0", 30⟩], 1⟩ =
      some ⟨"0", "Jean Dupont", "jean@example.com", 30⟩ := by
  exact ⟨rfl, rfl⟩

/-- C6 (login modelled from spec §4.4, the auth service source not being in
the repository snapshot): a login with a present email but a password
failing hash verification and a login with an absent email fail with the
very same external error `InvalidCredentials` — the two outcomes are equal
as response values, so they are not distinguishable by response shape. -/
theorem login_unknown_email_wrong_password_indistinguishable
    (bverify : String → String → Bool) (st : Store)
    (e p e2 p2 : String) (u : UserRecord)
    (hfound : st.findByEmail e = some u)
    (hwrong : bverify p u.passwordHash = false)
    (hmiss : st.findByEmail e2 = none) :
    AuthService.login bverify ⟨e, p⟩ st =
      Except.error AppError.invalidCredentials ∧
    AuthService.login bverify ⟨e2, p2⟩ st =
      Except.error AppError.invalidCredentials ∧
    AuthService.login bverify ⟨e, p⟩ st = AuthService.login bverify ⟨e2, p2⟩ st := by
  have h1 : AuthService.login bverify ⟨e, p⟩ st =
      Except.error AppError.invalidCredentials := by
    unfold AuthService.login
    rw [hfound]
    simp [hwrong]
  have h2 : AuthService.login bverify ⟨e2, p2⟩ st =
      Except.error AppError.invalidCredentials := by
    unfold AuthService.login
    rw [hmiss]
  exact ⟨h1, h2, by rw [h1, h2]⟩

/-- Witness for C6: on a store holding `jean@example.com`, a wrong password
for that email and an unknown email produce the same error. -/
theorem login_unknown_email_wrong_password_indistinguishable_witness :
    AuthService.login (fun _ _ => false) ⟨"jean@example.com", "wrong"⟩
      ⟨[⟨"0", "Jean Dupont", "jean@example.com", "h0", 30⟩], 1⟩ =
      Except.error AppError.invalidCredentials ∧
    AuthService.login (fun _ _ => false) ⟨"nobody@example.com", "x"⟩
      ⟨[⟨"0", "Jean Dupont", "jean@example.com", "h0", 30⟩], 1⟩ =
      Except.error AppError.invalidCredentials ∧
    AuthService.login (fun _ _ => false) ⟨"jean@example.com", "wrong"⟩
      ⟨[⟨"0", "Jean Dupont", "jean@example.com", "h0", 30⟩], 1⟩ =
    AuthService.login (fun _ _ => false) ⟨"nobody@example.com", "x"⟩
      ⟨[⟨"0", "Jean Dupont", "jean@example.com", "h0", 30⟩], 1⟩ :=
  login_unknown_email_wrong_password_indistinguishable
    (fun _ _ => false)
    ⟨[⟨"0", "Jean Dupont", "jean@example.com", "h0", 30⟩], 1⟩
    "jean@example.com" "wrong" "nobody@example.com" "x"
    ⟨"0", "Jean Dupont", "jean@example.com", "h0", 30⟩
    (by decide) (by decide) (by decide)

/-- C9: whenever Register fails with `EmailConflict` (the validated input's
normalized email is already stored), the user store is left unchanged, the
response is the bare `EmailConflict` error (so no token is issued — the
error carries none), and the outcome does not depend on the hash function
at all (the hash of the password is never consulted). -/
theorem register_email_conflict_no_effect
    (bhash : String → String) (raw : RawInput) (st : Store)
    (dto : CreateUserData)
    (hval : runRegPipeline raw = Except.ok dto)
    (hconf : (st.findByEmail dto.email).isSome = true) :
    registerEndpoint bhash raw st = Except.error AppError.emailConflict ∧
    registerStep bhash raw st = st ∧
    (∀ bhash2 : String → String,
      registerEndpoint bhash2 raw st = registerEndpoint bhash raw st) := by
  obtain ⟨u, hu⟩ := Option.isSome_iff_exists.mp hconf
  have h1 : ∀ bh : String → String,
      registerEndpoint bh raw st = Except.error AppError.emailConflict := by
    intro bh
    unfold registerEndpoint
    rw [hval]
    dsimp only
    unfold UserService.register
    rw [hu]
  refine ⟨h1 bhash, ?_, fun b2 => by rw [h1 b2, h1 bhash]⟩
  unfold registerStep
  rw [h1 bhash]

/-- Witness for C9: re-registering `jean@example.com` on a store that
already holds it leaves the store unchanged and yields `EmailConflict`. -/
theorem register_email_conflict_no_effect_witness :
    registerEndpoint (fun _ => "h1")
      [("name", RVal.rstr "Jean Dupont"), ("email", RVal.rstr "Jean@Example.COM"),
       ("password", RVal.rstr "Secure1!abc"), ("age", RVal.rnum 30)]
      ⟨[⟨"0", "Jean Dupont", "jean@example.com", "h0", 30⟩], 1⟩ =
      Except.error AppError.emailConflict ∧
    registerStep (fun _ => "h1")
      [("name", RVal.rstr "Jean Dupont"), ("email", RVal.rstr "Jean@Example.COM"),
       ("password", RVal.rstr "Secure1!abc"), ("age", RVal.rnum 30)]
      ⟨[⟨"0", "Jean Dupont", "jean@example.com", "h0", 30⟩], 1⟩ =
      ⟨[⟨"0", "Jean Dupont", "jean@example.com", "h0", 30⟩], 1⟩ ∧
    (∀ bhash2 : String → String,
      registerEndpoint bhash2
        [("name", RVal.rstr "Jean Dupont"), ("email", RVal.rstr "Jean@Example.COM"),
         ("password", RVal.rstr "Secure1!abc"), ("age", RVal.rnum 30)]
        ⟨[⟨"0", "Jean Dupont", "jean@example.com", "h0", 30⟩], 1⟩ =
      registerEndpoint (fun _ => "h1")
        [("name", RVal.rstr "Jean Dupont"), ("email", RVal.rstr "Jean@Example.COM"),
         ("password", RVal.rstr "Secure1!abc"), ("age", RVal.rnum 30)]
        ⟨[⟨"0", "Jean Dupont", "jean@example.com", "h0", 30⟩], 1⟩) :=
  register_email_conflict_no_effect (fun _ => "h1")
    [("name", RVal.rstr "Jean Dupont"), ("email", RVal.rstr "Jean@Example.COM"),
     ("password", RVal.rstr "Secure1!abc"), ("age", RVal.rnum 30)]
    ⟨[⟨"0", "Jean Dupont", "jean@example.com", "h0", 30⟩], 1⟩
    ⟨"Jean Dupont", "jean@example.com", "Secure1!abc", 30⟩
    (by decide) (by decide)

/-- C10: the password pattern's character class constrains only the first
character: `#` is outside the allowed set, `"Aa1@efgh#"` carries it at
position 8 (after the first position) yet passes every password rule, and a
full registration with this password is accepted; in general the pattern on
any nonempty string is exactly the class test on the first character
conjoined with the four containment lookaheads (which never consult the
class). -/
theorem password_pattern_constrains_only_first_char :
    passwordClassChar '#' = false ∧
    "Aa1@efgh#".data.getD 8 ' ' = '#' ∧
    runRules passwordRules (some "Aa1@efgh#") = [] ∧
    runRegPipeline
      [("name", RVal.rstr "Jean Dupont"), ("email", RVal.rstr "a@b.com"),
       ("password", RVal.rstr "Aa1@efgh#"), ("age", RVal.rnum 30)] =
      Except.ok ⟨"Jean Dupont", "a@b.com", "Aa1@efgh#", 30⟩ ∧
    (∀ (c : Char) (rest : List Char),
      passwordPattern ⟨c :: rest⟩ =
        (passwordClassChar c && dotStarContains lowerAlphaChar (c :: rest) &&
         dotStarContains upperAlphaChar (c :: rest) &&
         dotStarContains digitCharB (c :: rest) &&
         dotStarContains passwordSpecialChar (c :: rest))) := by
  refine ⟨by decide, by decide, by decide, by decide, fun c rest => rfl⟩

/-- Witness for C10: the general first-character characterization applied at
a concrete password. -/
theorem password_pattern_constrains_only_first_char_witness :
    passwordPattern ⟨'A' :: "a1@xyzw".data⟩ =
      (passwordClassChar 'A' && dotStarContains lowerAlphaChar ('A' :: "a1@xyzw".data) &&
       dotStarContains upperAlphaChar ('A' :: "a1@xyzw".data) &&
       dotStarContains digitCharB ('A' :: "a1@xyzw".data) &&
       dotStarContains passwordSpecialChar ('A' :: "a1@xyzw".data)) :=
  password_pattern_constrains_only_first_char.2.2.2.2 'A' "a1@xyzw".data

/-- C2: (a) after any successful registration, a second registration whose
raw email normalizes (lowercase + trim) to the same string as the first
fails with `EmailConflict`; (b) in every store reachable from the empty
store by registration attempts (the only mutating operation in the spec
scope), no two `UserRecord`s share a normalized email. -/
theorem registered_emails_unique :
    (∀ (bhash bhash2 : String → String) (raw raw2 : RawInput) (st : Store)
       (tok : TokenResponse) (st2 : Store) (dto dto2 : CreateUserData)
       (s s2 : String),
       runRegPipeline raw = Except.ok dto →
       runRegPipeline raw2 = Except.ok dto2 →
       lookupRaw raw "email" = some (RVal.rstr s) →
       lookupRaw raw2 "email" = some (RVal.rstr s2) →
       jsTrim (jsToLower s) = jsTrim (jsToLower s2) →
       registerEndpoint bhash raw st = Except.ok (tok, st2) →
       registerEndpoint bhash2 raw2 st2 = Except.error AppError.emailConflict) ∧
    (∀ st : Store, Reachable st →
       st.users.Pairwise (fun u v => u.email ≠ v.email)) := by
  constructor
  · intro bhash bhash2 raw raw2 st tok st2 dto dto2 s s2 hval hval2 hs hs2 hnorm hok
    have hemail1 := (runRegPipeline_ok_iff.mp hval).2.1
    have hemail2 := (runRegPipeline_ok_iff.mp hval2).2.1
    rw [hs] at hemail1
    rw [hs2] at hemail2
    have e1 : jsTrim (jsToLower s) = dto.email := Option.some.inj hemail1
    have e2 : jsTrim (jsToLower s2) = dto2.email := Option.some.inj hemail2
    have heq : dto2.email = dto.email := by
      rw [← e1, ← e2, hnorm]
    obtain ⟨dto', hval', hfresh, hout⟩ := registerEndpoint_ok_elim hok
    rw [hval] at hval'
    injection hval' with hdd
    subst hdd
    have hst2 : st2 =
        ⟨st.users ++
           [⟨Nat.repr st.nextId, dto.name, dto.email, bhash dto.password,
             dto.age⟩],
         st.nextId + 1⟩ := congrArg Prod.snd hout
    have hfind : ∃ w, st2.findByEmail dto2.email = some w := by
      rw [hst2]
      unfold Store.findByEmail
      rw [List.find?_append]
      cases hfa : st.users.find? (fun v => v.email = dto2.email) with
      | some w => exact ⟨w, rfl⟩
      | none =>
          refine ⟨⟨Nat.repr st.nextId, dto.name, dto.email, bhash dto.password,
                   dto.age⟩, ?_⟩
          simp [List.find?, heq]
    obtain ⟨w, hw⟩ := hfind
    unfold registerEndpoint
    rw [hval2]
    dsimp only
    unfold UserService.register
    rw [hw]
  · intro st h
    induction h with
    | empty => simp
    | @step bhash raw st0 hst ih =>
        cases hr : registerEndpoint bhash raw st0 with
        | error e =>
            unfold registerStep
            rw [hr]
            exact ih
        | ok out =>
            obtain ⟨dto, hval, hfresh, hout⟩ := registerEndpoint_ok_elim hr
            unfold registerStep
            rw [hr]
            dsimp only
            rw [hout]
            dsimp only
            rw [List.pairwise_append]
            refine ⟨ih, by simp, ?_⟩
            intro a ha b hb
            simp only [List.mem_singleton] at hb
            subst hb
            have hne := List.find?_eq_none.mp hfresh a ha
            simp only [decide_eq_true_eq] at hne
            simpa using hne

/-- Witness for C2: on the empty store, registering `Jean@Example.COM` then
`" JEAN@EXAMPLE.COM "` (same email up to case and whitespace) hits
`EmailConflict`, and the store reached by the first registration has
pairwise distinct emails. -/
theorem registered_emails_unique_witness :
    registerEndpoint (fun _ => "h1")
      [("name", RVal.rstr "Jean Dupont"), ("email", RVal.rstr " JEAN@EXAMPLE.COM "),
       ("password", RVal.rstr "Secure1!abc"), ("age", RVal.rnum 30)]
      ⟨[⟨"0", "Jean Dupont", "jean@example.com", "h0", 30⟩], 1⟩ =
      Except.error AppError.emailConflict ∧
    (registerStep (fun _ => "h0")
      [("name", RVal.rstr "Jean Dupont"), ("email", RVal.rstr "Jean@Example.COM"),
       ("password", RVal.rstr "Secure1!abc"), ("age", RVal.rnum 30)]
      ⟨[], 0⟩).users.Pairwise (fun u v => u.email ≠ v.email) :=
  ⟨registered_emails_unique.1 (fun _ => "h0") (fun _ => "h1")
      [("name", RVal.rstr "Jean Dupont"), ("email", RVal.rstr "Jean@Example.COM"),
       ("password", RVal.rstr "Secure1!abc"), ("age", RVal.rnum 30)]
      [("name", RVal.rstr "Jean Dupont"), ("email", RVal.rstr " JEAN@EXAMPLE.COM "),
       ("password", RVal.rstr "Secure1!abc"), ("age", RVal.rnum 30)]
      ⟨[], 0⟩
      ⟨jwtSign ⟨"0", "jean@example.com"⟩⟩
      ⟨[⟨"0", "Jean Dupont", "jean@example.com", "h0", 30⟩], 1⟩
      ⟨"Jean Dupont", "jean@example.com", "Secure1!abc", 30⟩
      ⟨"Jean Dupont", "jean@example.com", "Secure1!abc", 30⟩
      "Jean@Example.COM" " JEAN@EXAMPLE.COM "
      (by decide) (by decide) (by decide) (by decide) (by decide) (by decide),
   registered_emails_unique.2 _
     (Reachable.step (fun _ => "h0")
       [("name", RVal.rstr "Jean Dupont"), ("email", RVal.rstr "Jean@Example.COM"),
        ("password", RVal.rstr "Secure1!abc"), ("age", RVal.rnum 30)]
       Reachable.empty)⟩

/-- C5 counterexample: `"#Aa1@efgh"` satisfies every condition the claim
states as sufficient — a present string of length in [8,128] containing a
lowercase letter, an uppercase letter, a digit and a symbol from the
allowed set — yet the password validation rejects it (its first character
`#` lies outside the pattern's character class), so the claim's "if and
only if" fails. -/
theorem password_claim_iff_fails_on_hash_prefixed :
    (8 ≤ ("#Aa1@efgh" : String).length ∧ ("#Aa1@efgh" : String).length ≤ 128 ∧
     "#Aa1@efgh".data.any lowerAlphaChar = true ∧
     "#Aa1@efgh".data.any upperAlphaChar = true ∧
     "#Aa1@efgh".data.any digitCharB = true ∧
     "#Aa1@efgh".data.any passwordSpecialChar = true) ∧
    runRules passwordRules (some "#Aa1@efgh") ≠ [] := by decide

/-- C5 (amended): the password field passes validation iff it is a present
string of length in [8,128] whose FIRST character lies in the allowed class
`[A-Za-z0-9@$!%*?&]` and which contains at least one lowercase letter, one
uppercase letter, one digit and one symbol of the set (each occurring
before any line terminator, per `.` semantics of the lookaheads); and the
password value is never trimmed or case-normalized (no `@Transform`). -/
theorem password_validation_characterization (s : String) :
    (runRules passwordRules (some s) = [] ↔
      (8 ≤ s.length ∧ s.length ≤ 128 ∧
       (∃ c rest, s.data = c :: rest ∧ passwordClassChar c = true) ∧
       dotStarContains lowerAlphaChar s.data = true ∧
       dotStarContains upperAlphaChar s.data = true ∧
       dotStarContains digitCharB s.data = true ∧
       dotStarContains passwordSpecialChar s.data = true)) ∧
    transformPassword (some (RVal.rstr s)) = some s := by
  refine ⟨?_, rfl⟩
  rw [runRules_eq_nil_iff]
  simp only [passwordRules, List.mem_cons, List.not_mem_nil, or_false,
    forall_eq_or_imp, forall_eq]
  constructor
  · rintro ⟨-, -, hmin, hmax, hpat⟩
    have hmin2 : 8 ≤ s.length := by
      simpa [minLenCheck] using hmin
    have hmax2 : s.length ≤ 128 := by
      simpa [maxLenCheck] using hmax
    have hpat2 : passwordPattern s = true := by simpa using hpat
    unfold passwordPattern at hpat2
    cases hd : s.data with
    | nil => rw [hd] at hpat2; cases hpat2
    | cons c rest =>
        rw [hd] at hpat2
        simp only [Bool.and_eq_true] at hpat2
        obtain ⟨⟨⟨⟨hclass, hl⟩, hu⟩, hdg⟩, hsp⟩ := hpat2
        exact ⟨hmin2, hmax2, ⟨c, rest, rfl, hclass⟩, hl, hu, hdg, hsp⟩
  · rintro ⟨hmin, hmax, ⟨c, rest, hd, hclass⟩, hl, hu, hdg, hsp⟩
    have hne : s ≠ "" := by
      intro he
      rw [he] at hd
      cases hd
    refine ⟨rfl, by simpa [isNotEmptyStr] using hne,
            by simpa [minLenCheck] using hmin,
            by simpa [maxLenCheck] using hmax, ?_⟩
    have : passwordPattern s = true := by
      unfold passwordPattern
      rw [hd] at hl hu hdg hsp ⊢
      simp [hclass, hl, hu, hdg, hsp]
    simpa using this

/-- Witness for the amended C5: `"Aa1@efgh"` passes the characterization. -/
theorem password_validation_characterization_witness :
    runRules passwordRules (some "Aa1@efgh") = [] :=
  (password_validation_characterization "Aa1@efgh").1.mpr
    ⟨by decide, by decide, ⟨'A', "a1@efgh".data, by decide, by decide⟩,
     by decide, by decide, by decide, by decide⟩

theorem findByEmail_eraseHashes (st : Store) (e : String) :
    (eraseHashes st).findByEmail e =
      (st.findByEmail e).map (fun u => { u with passwordHash := "" }) := by
  unfold Store.findByEmail eraseHashes
  rw [List.find?_map]
  rfl

theorem findById_eraseHashes (st : Store) (i : String) :
    (eraseHashes st).findById i =
      (st.findById i).map (fun u => { u with passwordHash := "" }) := by
  unfold Store.findById eraseHashes
  rw [List.find?_map]
  rfl

/-- C7: no operation's response carries the plaintext password or the
password hash.  (a) Every user projection is built by `toUserResponse`,
whose fields are exactly `{id, name, email, age}`; (b,c) `ListUsers` and
`GetUserById` responses are unchanged when every stored hash is erased;
(d) the `Register` response (its result component) is unchanged when the
stored hashes are erased AND the hash function is replaced — so neither
can flow into it; (e,f) a successful `Login` (modelled from spec §4.4)
returns only a token holding some stored user's id and email, and a
successful `GetProfile` returns only some stored user's public view. -/
theorem responses_never_contain_password_material :
    (∀ u : UserRecord, toUserResponse u = ⟨u.id, u.name, u.email, u.age⟩) ∧
    (∀ st : Store, UserService.getUsers st = UserService.getUsers (eraseHashes st)) ∧
    (∀ (i : String) (st : Store),
       UserService.getUserById i st = UserService.getUserById i (eraseHashes st)) ∧
    (∀ (bhash bhash2 : String → String) (raw : RawInput) (st : Store),
       Except.map Prod.fst (registerEndpoint bhash raw st) =
       Except.map Prod.fst (registerEndpoint bhash2 raw (eraseHashes st))) ∧
    (∀ (bverify : String → String → Bool) (dto : LoginData) (st : Store)
       (r : TokenResponse),
       AuthService.login bverify dto st = Except.ok r →
       ∃ u, u ∈ st.users ∧ r = ⟨jwtSign ⟨u.id, u.email⟩⟩) ∧
    (∀ (t : SignedToken) (st : Store) (r : UserResponse),
       AuthService.getProfile t st = Except.ok r →
       ∃ u, u ∈ st.users ∧ r = toUserResponse u) := by
  refine ⟨fun u => rfl, ?_, ?_, ?_, ?_, ?_⟩
  · intro st
    simp only [UserService.getUsers, eraseHashes, List.map_map]
    rfl
  · intro i st
    simp only [UserService.getUserById, findById_eraseHashes, Option.map_map]
    rfl
  · intro bhash bhash2 raw st
    unfold registerEndpoint
    cases hp : runRegPipeline raw with
    | error e => rfl
    | ok dto =>
        dsimp only
        unfold UserService.register
        rw [findByEmail_eraseHashes]
        cases hf : st.findByEmail dto.email with
        | some u => rfl
        | none => rfl
  · intro bverify dto st r h
    unfold AuthService.login at h
    cases hf : st.findByEmail dto.email with
    | none => rw [hf] at h; cases h
    | some u =>
        rw [hf] at h
        dsimp only at h
        split at h
        · injection h with h2
          exact ⟨u, List.mem_of_find?_eq_some hf, h2.symm⟩
        · cases h
  · intro t st r h
    unfold AuthService.getProfile at h
    cases hf : st.findById (jwtDecode t).sub with
    | none => rw [hf] at h; cases h
    | some u =>
        rw [hf] at h
        injection h with h2
        exact ⟨u, List.mem_of_find?_eq_some hf, h2.symm⟩

/-- Witness for C7: the hash-erasure invariance of `ListUsers` at a
concrete store with a stored hash. -/
theorem responses_never_contain_password_material_witness :
    UserService.getUsers
      ⟨[⟨"0", "Jean Dupont", "jean@example.com", "h0", 30⟩], 1⟩ =
    UserService.getUsers
      (eraseHashes ⟨[⟨"0", "Jean Dupont", "jean@example.com", "h0", 30⟩], 1⟩) :=
  responses_never_contain_password_material.2.1
    ⟨[⟨"0", "Jean Dupont", "jean@example.com", "h0", 30⟩], 1⟩

/-- C8: (a,b) any registration or login body containing a property outside
the declared DTO schema fails validation with a
`property <k> should not exist` message (`whitelist` +
`forbidNonWhitelisted`); (c) whenever registration validation succeeds, the
normalized record derives from the raw fields by exactly the declared
normalization — `name` is the trimmed raw string, `email` the lowercased
trimmed raw string, `password` the raw string verbatim, and `age` either
the raw number or the numeric value of a numeric-looking raw string —
never any other coercion. -/
theorem strict_schema_and_limited_coercion :
    (∀ (raw : RawInput) (k : String),
       k ∈ raw.map Prod.fst → k ∉ dtoKeys →
       ∃ msgs, runRegPipeline raw = Except.error (AppError.validation msgs) ∧
         ("property " ++ k ++ " should not exist") ∈ msgs) ∧
    (∀ (raw : RawInput) (k : String),
       k ∈ raw.map Prod.fst → k ∉ loginKeys →
       ∃ msgs, runLoginPipeline raw = Except.error (AppError.validation msgs) ∧
         ("property " ++ k ++ " should not exist") ∈ msgs) ∧
    (∀ (raw : RawInput) (dto : CreateUserData),
       runRegPipeline raw = Except.ok dto →
       (∃ s, lookupRaw raw "name" = some (RVal.rstr s) ∧ dto.name = jsTrim s) ∧
       (∃ s, lookupRaw raw "email" = some (RVal.rstr s) ∧
          dto.email = jsTrim (jsToLower s)) ∧
       (∃ s, lookupRaw raw "password" = some (RVal.rstr s) ∧ dto.password = s) ∧
       ((∃ n, lookupRaw raw "age" = some (RVal.rnum n) ∧ dto.age = n) ∨
        (∃ s, lookupRaw raw "age" = some (RVal.rstr s) ∧
           parseIntString s = some dto.age))) := by
  refine ⟨?_, ?_, ?_⟩
  · intro raw k hk hnk
    have hmem : ("property " ++ k ++ " should not exist") ∈
        unknownKeyMessages dtoKeys raw := by
      unfold unknownKeyMessages
      apply List.mem_map_of_mem
      rw [List.mem_filter]
      exact ⟨hk, by simpa using hnk⟩
    have hall : ("property " ++ k ++ " should not exist") ∈ regMessages raw := by
      unfold regMessages
      exact List.mem_append_left _ (List.mem_append_left _
        (List.mem_append_left _ (List.mem_append_left _ hmem)))
    exact ⟨regMessages raw, runRegPipeline_error_of_ne (List.ne_nil_of_mem hall),
           hall⟩
  · intro raw k hk hnk
    have hmem : ("property " ++ k ++ " should not exist") ∈
        unknownKeyMessages loginKeys raw := by
      unfold unknownKeyMessages
      apply List.mem_map_of_mem
      rw [List.mem_filter]
      exact ⟨hk, by simpa using hnk⟩
    have hall : ("property " ++ k ++ " should not exist") ∈ loginMessages raw := by
      unfold loginMessages
      exact List.mem_append_left _ (List.mem_append_left _ hmem)
    exact ⟨loginMessages raw, runLoginPipeline_error_of_ne (List.ne_nil_of_mem hall),
           hall⟩
  · intro raw dto h
    obtain ⟨hn, he, hp2, ha, -⟩ := runRegPipeline_ok_iff.mp h
    refine ⟨transformName_eq_some.mp hn, transformEmail_eq_some.mp he,
            transformPassword_eq_some.mp hp2, ?_⟩
    rcases transformAge_eq_some.mp ha with hcase | hcase
    · exact Or.inl hcase
    · exact Or.inr hcase

/-- Witness for C8: a registration body with an `extraProperty` field is
rejected with the corresponding message. -/
theorem strict_schema_and_limited_coercion_witness :
    ∃ msgs,
      runRegPipeline
        [("name", RVal.rstr "Jean Dupont"), ("email", RVal.rstr "a@b.com"),
         ("password", RVal.rstr "Secure1!abc"), ("age", RVal.rnum 30),
         ("extraProperty", RVal.rstr "x")] =
        Except.error (AppError.validation msgs) ∧
      ("property " ++ "extraProperty" ++ " should not exist") ∈ msgs :=
  strict_schema_and_limited_coercion.1
    [("name", RVal.rstr "Jean Dupont"), ("email", RVal.rstr "a@b.com"),
     ("password", RVal.rstr "Secure1!abc"), ("age", RVal.rnum 30),
     ("extraProperty", RVal.rstr "x")]
    "extraProperty" (by decide) (by decide)

theorem lookupRaw_perm_eq {raw raw2 : RawInput} (hp : List.Perm raw raw2)
    (hnd : (raw.map Prod.fst).Nodup) (k : String) :
    lookupRaw raw k = lookupRaw raw2 k := by
  have hpw : List.Pairwise (fun a b : String × RVal => a.fst ≠ b.fst) raw :=
    List.pairwise_map.mp hnd
  have hsym : Symmetric (fun a b : String × RVal => a.fst ≠ b.fst) :=
    fun a b hab hba => hab hba.symm
  unfold lookupRaw
  cases h : List.find? (fun kv => kv.fst = k) raw with
  | none =>
      have h2 : List.find? (fun kv => kv.fst = k) raw2 = none := by
        rw [List.find?_eq_none] at h ⊢
        intro x hx
        exact h x (hp.mem_iff.mpr hx)
      rw [h2]
  | some kv =>
      have hk : kv.fst = k := by simpa using List.find?_some h
      have hmem : kv ∈ raw := List.mem_of_find?_eq_some h
      cases h2 : List.find? (fun kv => kv.fst = k) raw2 with
      | none =>
          exfalso
          have h3 := List.find?_eq_none.mp h2 kv (hp.mem_iff.mp hmem)
          simp [hk] at h3
      | some kv2 =>
          have hk2 : kv2.fst = k := by simpa using List.find?_some h2
          have hmem2 : kv2 ∈ raw := hp.mem_iff.mpr (List.mem_of_find?_eq_some h2)
          have heqkv : kv = kv2 := by
            by_contra hne
            exact (hpw.forall hsym) hmem hmem2 hne (hk.trans hk2.symm)
          rw [heqkv]

theorem regMessages_perm {raw raw2 : RawInput} (hp : List.Perm raw raw2)
    (hnd : (raw.map Prod.fst).Nodup) :
    List.Perm (regMessages raw) (regMessages raw2) := by
  have hunk : List.Perm (unknownKeyMessages dtoKeys raw)
      (unknownKeyMessages dtoKeys raw2) :=
    List.Perm.map (fun k => "property " ++ k ++ " should not exist")
      (List.Perm.filter (fun k => !dtoKeys.contains k) (hp.map Prod.fst))
  unfold regMessages
  rw [lookupRaw_perm_eq hp hnd "name", lookupRaw_perm_eq hp hnd "email",
      lookupRaw_perm_eq hp hnd "password", lookupRaw_perm_eq hp hnd "age"]
  simp only [List.append_assoc]
  exact hunk.append (List.Perm.refl _)

theorem runRegPipeline_error_shape {raw : RawInput} {e : AppError}
    (h : runRegPipeline raw = Except.error e) :
    e = AppError.validation (regMessages raw) := by
  unfold runRegPipeline at h
  dsimp only at h
  split at h
  · split at h
    · cases h
    · exact (Except.error.inj h).symm
  · exact (Except.error.inj h).symm

theorem runRegPipeline_ok_of_msgs_nil {raw : RawInput}
    (h0 : regMessages raw = []) :
    ∃ dto, runRegPipeline raw = Except.ok dto := by
  have hcopy := h0
  unfold regMessages at hcopy
  simp only [List.append_eq_nil] at hcopy
  obtain ⟨⟨⟨⟨hu, hn⟩, he⟩, hpw⟩, ha⟩ := hcopy
  have hn1 := (runRules_eq_nil_iff _ _).mp hn
  have he1 := (runRules_eq_nil_iff _ _).mp he
  have hp1 := (runRules_eq_nil_iff _ _).mp hpw
  have ha1 := (runRules_eq_nil_iff _ _).mp ha
  have hnsome : (transformName (lookupRaw raw "name")).isSome = true :=
    hn1 ⟨fun v => v.isSome, msgNameIsString⟩ (by simp [nameRules])
  have hesome : (transformEmail (lookupRaw raw "email")).isSome = true := by
    have h2 := he1 _ (by simp [emailRules] : (⟨isNotEmptyStr, msgEmailRequired⟩ :
      Rule (Option String)) ∈ emailRules)
    cases hev : transformEmail (lookupRaw raw "email") with
    | none => rw [hev] at h2; cases h2
    | some s => rfl
  have hpsome : (transformPassword (lookupRaw raw "password")).isSome = true :=
    hp1 ⟨fun v => v.isSome, msgPasswordIsString⟩ (by simp [passwordRules])
  have hasome : (transformAge (lookupRaw raw "age")).isSome = true :=
    ha1 ⟨fun v => v.isSome, msgAgeInt⟩ (by simp [ageRules])
  obtain ⟨n, hnv⟩ := Option.isSome_iff_exists.mp hnsome
  obtain ⟨e, hev⟩ := Option.isSome_iff_exists.mp hesome
  obtain ⟨p, hpv⟩ := Option.isSome_iff_exists.mp hpsome
  obtain ⟨a, hav⟩ := Option.isSome_iff_exists.mp hasome
  exact ⟨⟨n, e, p, a⟩, runRegPipeline_ok_iff.mpr ⟨hnv, hev, hpv, hav, h0⟩⟩

theorem runRegPipeline_error_ne {raw : RawInput} {e : AppError}
    (h : runRegPipeline raw = Except.error e) :
    regMessages raw ≠ [] := by
  intro h0
  obtain ⟨dto, hok⟩ := runRegPipeline_ok_of_msgs_nil h0
  rw [hok] at h
  cases h

/-- C4: (a) validation does not depend on the order of the body's fields —
for any permutation of a body with distinct keys, acceptance is identical
and the violation lists are permutations of each other; (b) a rejected
body's message list has exactly one message per violated rule: its length
is the number of non-whitelisted keys plus the number of failing rules of
each field's rule table (all collected, not just the first); (c) the spec
§8 example `{name: "J", email: "a@b.com", password: "Secure1!abc",
age: 30}` yields exactly the single name-minimum-length message. -/
theorem validation_collects_all_violations :
    (∀ (raw raw2 : RawInput), List.Perm raw raw2 → (raw.map Prod.fst).Nodup →
      ((runRegPipeline raw).toOption = (runRegPipeline raw2).toOption ∧
       ∀ msgs, runRegPipeline raw = Except.error (AppError.validation msgs) →
         ∃ msgs2,
           runRegPipeline raw2 = Except.error (AppError.validation msgs2) ∧
           List.Perm msgs msgs2)) ∧
    (∀ (raw : RawInput) (msgs : List String),
      runRegPipeline raw = Except.error (AppError.validation msgs) →
      msgs.length =
        (raw.map Prod.fst).countP (fun k => !dtoKeys.contains k) +
        nameRules.countP
          (fun r => !r.check (transformName (lookupRaw raw "name"))) +
        emailRules.countP
          (fun r => !r.check (transformEmail (lookupRaw raw "email"))) +
        passwordRules.countP
          (fun r => !r.check (transformPassword (lookupRaw raw "password"))) +
        ageRules.countP
          (fun r => !r.check (transformAge (lookupRaw raw "age")))) ∧
    runRegPipeline
      [("name", RVal.rstr "J"), ("email", RVal.rstr "a@b.com"),
       ("password", RVal.rstr "Secure1!abc"), ("age", RVal.rnum 30)] =
      Except.error (AppError.validation [msgNameMin]) := by
  refine ⟨?_, ?_, by decide⟩
  · intro raw raw2 hp hnd
    have hmsgs := regMessages_perm hp hnd
    constructor
    · cases hres : runRegPipeline raw with
      | ok dto =>
          have hcomp := runRegPipeline_ok_iff.mp hres
          have hok2 : runRegPipeline raw2 = Except.ok dto := by
            apply runRegPipeline_ok_iff.mpr
            refine ⟨?_, ?_, ?_, ?_, ?_⟩
            · rw [← lookupRaw_perm_eq hp hnd "name"]; exact hcomp.1
            · rw [← lookupRaw_perm_eq hp hnd "email"]; exact hcomp.2.1
            · rw [← lookupRaw_perm_eq hp hnd "password"]; exact hcomp.2.2.1
            · rw [← lookupRaw_perm_eq hp hnd "age"]; exact hcomp.2.2.2.1
            · have hlen := hmsgs.length_eq
              rw [hcomp.2.2.2.2] at hlen
              simp only [List.length_nil] at hlen
              exact List.length_eq_zero.mp hlen.symm
          rw [hok2]
      | error e =>
          have hne := runRegPipeline_error_ne hres
          have hne2 : regMessages raw2 ≠ [] := by
            intro h0
            apply hne
            have hlen := hmsgs.length_eq
            rw [h0] at hlen
            simp only [List.length_nil] at hlen
            exact List.length_eq_zero.mp hlen
          have herr2 := runRegPipeline_error_of_ne hne2
          rw [herr2]
          rfl
    · intro msgs hmsgse
      have hmm : msgs = regMessages raw := runRegPipeline_error_elim hmsgse
      have hne := runRegPipeline_error_ne hmsgse
      have hne2 : regMessages raw2 ≠ [] := by
        intro h0
        apply hne
        have hlen := hmsgs.length_eq
        rw [h0] at hlen
        simp only [List.length_nil] at hlen
        exact List.length_eq_zero.mp hlen
      refine ⟨regMessages raw2, runRegPipeline_error_of_ne hne2, ?_⟩
      rw [hmm]
      exact hmsgs
  · intro raw msgs h
    rw [runRegPipeline_error_elim h]
    unfold regMessages unknownKeyMessages runRules
    simp [List.countP_eq_length_filter]
    omega

/-- Witness for C4: order invariance applied to the §8 example and its
reversal. -/
theorem validation_collects_all_violations_witness :
    (runRegPipeline
      [("name", RVal.rstr "J"), ("email", RVal.rstr "a@b.com"),
       ("password", RVal.rstr "Secure1!abc"), ("age", RVal.rnum 30)]).toOption =
    (runRegPipeline
      [("age", RVal.rnum 30), ("password", RVal.rstr "Secure1!abc"),
       ("email", RVal.rstr "a@b.com"), ("name", RVal.rstr "J")]).toOption :=
  (validation_collects_all_violations.1
    [("name", RVal.rstr "J"), ("email", RVal.rstr "a@b.com"),
     ("password", RVal.rstr "Secure1!abc"), ("age", RVal.rnum 30)]
    [("age", RVal.rnum 30), ("password", RVal.rstr "Secure1!abc"),
     ("email", RVal.rstr "a@b.com"), ("name", RVal.rstr "J")]
    (List.isPerm_iff.mp (by decide)) (by decide)).1
